import Mathlib

/-!
Shallow embedding of `src/wormhole_mailbox_server/database.py` (the schema
provisioning and migration engine of the magic-wormhole mailbox server).

The filesystem is an explicit `World` (a map from path to file data plus a
counter feeding `tempfile.mkstemp` name generation).  A sqlite connection is a
`Conn`: its optional backing path (`none` for `":memory:"`), a flag recording
that the backing file was not a database, and the database contents visible
through the connection.  Database contents are modelled by the facts this
module observes: whether the `version` table exists, the row it holds, the
log of SQL scripts executed so far, and the rows a
`PRAGMA foreign_key_check` would report.

Bundled SQL resources (`db-schemas/*.sql`) are not part of the source file;
their availability is an `Env` parameter and their effect on the database is
modelled from the spec (see `applyScript`).

Python exceptions are the `Err` type; each Python function that can raise
returns `Except Err` (statefully: `World × Except Err _`).
-/

namespace WormholeDB

/-- A bundled SQL script, identified by its provenance: either the creation
schema `db-schemas/name-vN.sql` or the single-step migration
`db-schemas/upgrade-name-to-vN.sql`. -/
inductive Script where
  | creation (name : String) (version : Nat)
  | upgrade (name : String) (version : Nat)
deriving DecidableEq, Repr

/-- The contents of a sqlite database, as far as `database.py` observes them:
whether the `version` table exists, the single row it holds (if any), the
ordered log of scripts executed against this database, and the rows that
`PRAGMA foreign_key_check` reports. -/
structure DBContent where
  hasVersionTable : Bool
  versionRecord : Option Nat
  appliedScripts : List Script
  fkViolations : List String
deriving DecidableEq, Repr

/-- A freshly created, empty sqlite database (no tables, no violations). -/
def emptyDB : DBContent := ⟨false, none, [], []⟩

/-- The bytes found at a filesystem path: a zero-byte file (which sqlite
treats as a valid empty database), a database file, or non-database junk
(distinct junk files are distinguished by an id, for byte-for-byte
comparisons). -/
inductive FileData where
  | empty
  | db (c : DBContent)
  | junk (id : Nat)
deriving DecidableEq, Repr

/-- The filesystem: contents by path, plus the counter from which
`tempfile.mkstemp` draws fresh temporary names. -/
structure World where
  files : String → Option FileData
  tempCounter : Nat

/-- Point update of the file map (used for file creation, commit, copy). -/
def updateFiles (f : String → Option FileData) (p : String) (fd : FileData) :
    String → Option FileData :=
  fun q => if q = p then some fd else f q

/-- Failure modes of `importlib.resources...read_text`: an `OSError` (with a
flag telling whether it is specifically `FileNotFoundError`), or a failure
that is not an `OSError` (e.g. `UnicodeDecodeError` while decoding). -/
inductive ReadErr where
  | osError (notFound : Bool)
  | decodeError
deriving DecidableEq, Repr

/-- The bundled-resource environment: whether reading the creation schema
`name-vN.sql` resp. the upgrader `upgrade-name-to-vN.sql` succeeds. -/
structure Env where
  schemaRead : String → Nat → Except ReadErr Unit
  upgraderRead : String → Nat → Except ReadErr Unit

/-- Python exceptions raised by `database.py` and by the libraries it calls:
`DBError`, `DBDoesntExist`, `DBAlreadyExists`, `ValueError` (from
`get_upgrader`), a propagated resource-read failure, sqlite errors
(`OperationalError` / `DatabaseError`), `AssertionError`, and the
`TypeError` from subscripting a `None` returned by `fetchone()`. -/
inductive Err where
  | dbError (msg : String)
  | dbDoesntExist
  | dbAlreadyExists
  | valueError (msg : String)
  | readError (e : ReadErr)
  | sqlError (msg : String)
  | assertionError
  | typeError
deriving DecidableEq, Repr

/-- Which of the modelled exceptions an `except ValueError:` clause catches.
Note that Python's `UnicodeDecodeError` is a subclass of `ValueError`, so a
propagated decode failure is caught as well. -/
def isValueError : Err → Bool
  | .valueError _ => true
  | .readError .decodeError => true
  | _ => false

/-- `get_schema(name, version)`: read `db-schemas/name-vversion.sql`.  Any
read failure propagates (the caller does not catch it). -/
def get_schema (env : Env) (name : String) (version : Nat) : Except Err Script :=
  match env.schemaRead name version with
  | .ok _ => .ok (.creation name version)
  | .error e => .error (.readError e)

/-- `get_upgrader(name, new_version)`: read
`db-schemas/upgrade-name-to-vnew_version.sql`.  The source wraps the read in
`try ... except OSError` (commented "includes FileNotFoundError") and turns
every `OSError` into `ValueError("no upgrader for %d")`; failures that are
not `OSError`s propagate. -/
def get_upgrader (env : Env) (name : String) (new_version : Nat) : Except Err Script :=
  match env.upgraderRead name new_version with
  | .ok _ => .ok (.upgrade name new_version)
  | .error (.osError _) => .error (.valueError ("no upgrader for " ++ toString new_version))
  | .error .decodeError => .error (.readError .decodeError)

/-- Source versions targeted by the application. -/
def CHANNELDB_TARGET_VERSION : Nat := 1

def USAGEDB_TARGET_VERSION : Nat := 2

/-- The connection object: the file backing it (`none` for `":memory:"`), a
flag set when the backing file is not in database format (sqlite only
notices on first access), and the contents seen through the connection
(uncommitted changes included). -/
structure Conn where
  target : Option String
  junk : Bool
  content : DBContent
deriving DecidableEq, Repr

/-- `sqlite3.connect(dbfile)`: `":memory:"` yields a fresh empty database;
an existing path is opened (junk files open fine, errors surface on first
access); a missing path is created as an empty file. -/
def connect (w : World) (dbfile : String) : World × Conn :=
  if dbfile = ":memory:" then
    (w, ⟨none, false, emptyDB⟩)
  else
    match w.files dbfile with
    | none =>
        ({ w with files := updateFiles w.files dbfile .empty },
         ⟨some dbfile, false, emptyDB⟩)
    | some .empty => (w, ⟨some dbfile, false, emptyDB⟩)
    | some (.db c) => (w, ⟨some dbfile, false, c⟩)
    | some (.junk _) => (w, ⟨some dbfile, true, emptyDB⟩)

/-- `db.execute("PRAGMA foreign_key_check").fetchall()`: the first operation
that actually reads the file; on a non-database file sqlite raises
`DatabaseError`, otherwise the violation rows are returned. -/
def foreign_key_check (conn : Conn) : Except Err (List String) :=
  if conn.junk then .error (.sqlError "file is not a database")
  else .ok conn.content.fkViolations

/-- `_initialize_db_connection(db)`: install the row factory (not otherwise
observable in this model), `PRAGMA foreign_keys = ON`, then run the
`foreign_key_check`; a non-empty result raises
`DBError("failed foreign key check: ...")` carrying the violation list. -/
def initialize_db_connection (conn : Conn) : Except Err Unit :=
  match foreign_key_check conn with
  | .error e => .error e
  | .ok problems =>
      if problems = [] then .ok ()
      else .error (.dbError ("failed foreign key check: " ++ toString problems))

/-- `_open_db_connection(dbfile)`: connect and initialize; the
`except (EnvironmentError, sqlite3.OperationalError, sqlite3.DatabaseError)`
clause wraps sqlite/OS failures into
`DBError("Unable to create/open db file ...")`, while the `DBError` raised
by the foreign-key gate is not in that tuple and propagates unchanged. -/
def open_db_connection (w : World) (dbfile : String) : World × Except Err Conn :=
  let wc := connect w dbfile
  match initialize_db_connection wc.2 with
  | .ok _ => (wc.1, .ok wc.2)
  | .error (.sqlError m) =>
      (wc.1, .error (.dbError ("Unable to create/open db file " ++ dbfile ++ ": " ++ m)))
  | .error e => (wc.1, .error e)

/-- Modelled from the spec: the effect of executing a bundled SQL script,
whose text (`db-schemas/*.sql`) is not part of the source file.  Per the
spec's data model, the creation script creates the application tables
(including an empty `version` table), and the single-step migration script
for version `N` transforms the data and updates the version record to `N`
("updated once per successful migration step (by inserting/updating to
N+1)").  Every executed script is appended to the content's log. -/
def applyScript : Script → DBContent → DBContent
  | .creation n v, c =>
      { c with hasVersionTable := true,
               appliedScripts := c.appliedScripts ++ [.creation n v] }
  | .upgrade n v, c =>
      { c with versionRecord := some v,
               appliedScripts := c.appliedScripts ++ [.upgrade n v] }

/-- `db.executescript(script)`: fails on a non-database file, otherwise
applies the script to the contents seen by the connection. -/
def executescript (conn : Conn) (s : Script) : Except Err Conn :=
  if conn.junk then .error (.sqlError "file is not a database")
  else .ok { conn with content := applyScript s conn.content }

/-- `db.execute("INSERT INTO version (version) VALUES (?)", (v,))`: requires
the `version` table to exist. -/
def execute_insert_version (conn : Conn) (v : Nat) : Except Err Conn :=
  if conn.junk then .error (.sqlError "file is not a database")
  else if conn.content.hasVersionTable then
    .ok { conn with content := { conn.content with versionRecord := some v } }
  else .error (.sqlError "no such table: version")

/-- `db.execute("SELECT version FROM version").fetchone()["version"]`:
`OperationalError` without a `version` table, `TypeError` when the table is
empty (`fetchone()` returns `None`), else the recorded version. -/
def execute_select_version (conn : Conn) : Except Err Nat :=
  if conn.junk then .error (.sqlError "file is not a database")
  else if conn.content.hasVersionTable then
    match conn.content.versionRecord with
    | some v => .ok v
    | none => .error .typeError
  else .error (.sqlError "no such table: version")

/-- `db.commit()`: make the connection's contents durable at its backing
file; a `":memory:"` connection touches no file. -/
def commit (w : World) (conn : Conn) : World :=
  match conn.target with
  | none => w
  | some p => { w with files := updateFiles w.files p (.db conn.content) }

/-- `_initialize_db_schema(db, name, target_version)`: fetch the creation
schema, execute it, insert the version record, commit.  Errors propagate
uncaught. -/
def initialize_db_schema (env : Env) (w : World) (conn : Conn) (name : String)
    (target_version : Nat) : World × Except Err Conn :=
  match get_schema env name target_version with
  | .error e => (w, .error e)
  | .ok schema =>
      match executescript conn schema with
      | .error e => (w, .error e)
      | .ok conn2 =>
          match execute_insert_version conn2 target_version with
          | .error e => (w, .error e)
          | .ok conn3 => (commit w conn3, .ok conn3)

/-- The name `tempfile.mkstemp(prefix=basename(dbfile)+".", dir=dirname(dbfile))`
produces: a fresh suffix appended to `dbfile ++ "."`, which lies in the same
directory as `dbfile`. -/
def temp_fn (w : World) (dbfile : String) : String :=
  dbfile ++ "." ++ toString w.tempCounter

/-- `_get_temporary_dbfile(dbfile)`: `mkstemp` creates the (empty) temporary
file next to `dbfile` and returns its name. -/
def get_temporary_dbfile (w : World) (dbfile : String) : World × String :=
  ({ files := updateFiles w.files (temp_fn w dbfile) .empty,
     tempCounter := w.tempCounter + 1 },
   temp_fn w dbfile)

/-- `os.rename(src, dst)`: atomically move the file at `src` onto `dst`. -/
def renameFile (w : World) (src dst : String) : World :=
  { w with files := fun q =>
      if q = dst then w.files src
      else if q = src then none
      else w.files q }

/-- `_atomic_create_and_initialize_db(dbfile, name, target_version)`: create
a temporary file next to `dbfile`, initialize the schema there, close,
rename onto `dbfile`, and reopen `dbfile`.  Errors propagate at the point
they occur (nothing is cleaned up). -/
def atomic_create_and_initialize_db (env : Env) (w : World) (dbfile name : String)
    (target_version : Nat) : World × Except Err Conn :=
  let wt := get_temporary_dbfile w dbfile
  match open_db_connection wt.1 wt.2 with
  | (w2, .error e) => (w2, .error e)
  | (w2, .ok db) =>
      match initialize_db_schema env w2 db name target_version with
      | (w3, .error e) => (w3, .error e)
      | (w3, .ok _) =>
          open_db_connection (renameFile w3 wt.2 dbfile) dbfile

/-- The first phase of `_get_db` (lines 94-100): `":memory:"` is created
fresh and initialized immediately; an existing path is opened as-is; a
missing path goes through the atomic provisioner. -/
def openPhase (env : Env) (w : World) (dbfile name : String) (tv : Nat) :
    World × Except Err Conn :=
  if dbfile = ":memory:" then
    match open_db_connection w dbfile with
    | (w1, .error e) => (w1, .error e)
    | (w1, .ok db) => initialize_db_schema env w1 db name tv
  else if (w.files dbfile).isSome then
    open_db_connection w dbfile
  else
    atomic_create_and_initialize_db env w dbfile name tv

/-- Name of the pre-upgrade backup: `"%s-backup-v%d" % (dbfile, version)`. -/
def backup_fn (dbfile : String) (v : Nat) : String :=
  dbfile ++ "-backup-v" ++ toString v

/-- Lines 104-107 of `_get_db`: when the recorded version is behind the
target and the database is persistent, `shutil.copy` the file to its backup
name before the loop runs. -/
def backupStep (w : World) (dbfile : String) (v tv : Nat) : World :=
  if v < tv ∧ dbfile ≠ ":memory:" then
    match w.files dbfile with
    | some fd => { w with files := updateFiles w.files (backup_fn dbfile v) fd }
    | none => w
  else w

/-- The `DBError` message of the migration loop's missing-upgrader branch:
`"Unable to upgrade %s to version %s, left at %s" % (dbfile, version+1, version)`. -/
def upgradeFailMsg (dbfile : String) (v : Nat) : String :=
  "Unable to upgrade " ++ dbfile ++ " to version " ++ toString (v + 1) ++
    ", left at " ++ toString v

/-- The `while version < target_version` loop of `_get_db` (lines 109-120),
with the remaining iteration count made explicit: the loop variable rises by
one per iteration, so starting at `v` against target `t` it runs `t - v`
times.  Each iteration fetches the upgrader for `v+1` (an `except
ValueError` turns resolution failure into the `DBError` above), executes it,
commits, and advances. -/
def loopAux (env : Env) (dbfile name : String) :
    Nat → Nat → World → Conn → World × Except Err (Conn × Nat)
  | 0, v, w, conn => (w, .ok (conn, v))
  | steps + 1, v, w, conn =>
      match get_upgrader env name (v + 1) with
      | .error e =>
          if isValueError e then (w, .error (.dbError (upgradeFailMsg dbfile v)))
          else (w, .error e)
      | .ok s =>
          match executescript conn s with
          | .error e => (w, .error e)
          | .ok conn2 => loopAux env dbfile name steps (v + 1) (commit w conn2) conn2

/-- Lines 122-125 of `_get_db`: after the loop, a final loop-variable value
different from the target raises `DBError("Unable to handle db version ...")`,
otherwise the connection is returned. -/
def postLoop : World × Except Err (Conn × Nat) → Nat → World × Except Err Conn
  | (w, .error e), _ => (w, .error e)
  | (w, .ok (conn, vf)), tv =>
      if vf ≠ tv then (w, .error (.dbError ("Unable to handle db version " ++ toString vf)))
      else (w, .ok conn)

/-- `_get_db(dbfile, name, target_version)`: open/create per `openPhase`,
read the version record, back up a behind-target persistent file, run the
migration loop, and apply the final version check. -/
def get_db (env : Env) (w : World) (dbfile name : String) (tv : Nat) :
    World × Except Err Conn :=
  match openPhase env w dbfile name tv with
  | (w1, .error e) => (w1, .error e)
  | (w1, .ok db) =>
      match execute_select_version db with
      | .error e => (w1, .error e)
      | .ok version =>
          postLoop (loopAux env dbfile name (tv - version) version
            (backupStep w1 dbfile version tv) db) tv

/-- `create_or_upgrade_channel_db(dbfile)`. -/
def create_or_upgrade_channel_db (env : Env) (w : World) (dbfile : String) :
    World × Except Err Conn :=
  get_db env w dbfile "channel" CHANNELDB_TARGET_VERSION

/-- `create_or_upgrade_usage_db(dbfile)`: `None` yields no connection. -/
def create_or_upgrade_usage_db (env : Env) (w : World) :
    Option String → World × Except Err (Option Conn)
  | none => (w, .ok none)
  | some dbfile =>
      match get_db env w dbfile "usage" USAGEDB_TARGET_VERSION with
      | (w2, .ok c) => (w2, .ok (some c))
      | (w2, .error e) => (w2, .error e)

/-- `open_existing_db(dbfile)`: assert the sentinel away, fail with
`DBDoesntExist` on a missing path, otherwise plain open. -/
def open_existing_db (w : World) (dbfile : String) : World × Except Err Conn :=
  if dbfile = ":memory:" then (w, .error .assertionError)
  else if (w.files dbfile).isSome then open_db_connection w dbfile
  else (w, .error .dbDoesntExist)

/-- `create_channel_db(dbfile)`: strict creation; `":memory:"` is built
fresh without any existence check, a present path raises `DBAlreadyExists`,
a missing one goes through the atomic provisioner. -/
def create_channel_db (env : Env) (w : World) (dbfile : String) :
    World × Except Err Conn :=
  if dbfile = ":memory:" then
    match open_db_connection w dbfile with
    | (w1, .error e) => (w1, .error e)
    | (w1, .ok db) => initialize_db_schema env w1 db "channel" CHANNELDB_TARGET_VERSION
  else if (w.files dbfile).isSome then (w, .error .dbAlreadyExists)
  else atomic_create_and_initialize_db env w dbfile "channel" CHANNELDB_TARGET_VERSION

/-- `create_usage_db(dbfile)`: same shape as `create_channel_db` for the
usage schema. -/
def create_usage_db (env : Env) (w : World) (dbfile : String) :
    World × Except Err Conn :=
  if dbfile = ":memory:" then
    match open_db_connection w dbfile with
    | (w1, .error e) => (w1, .error e)
    | (w1, .ok db) => initialize_db_schema env w1 db "usage" USAGEDB_TARGET_VERSION
  else if (w.files dbfile).isSome then (w, .error .dbAlreadyExists)
  else atomic_create_and_initialize_db env w dbfile "usage" USAGEDB_TARGET_VERSION

/-! ### Basic lemmas about the world and connection primitives -/

theorem updateFiles_self (f : String → Option FileData) (p : String) (fd : FileData) :
    updateFiles f p fd p = some fd := by
  simp [updateFiles]

theorem updateFiles_ne (f : String → Option FileData) (p : String) (fd : FileData)
    (q : String) (h : q ≠ p) : updateFiles f p fd q = f q := by
  simp [updateFiles, h]

theorem append_ne_of_len (s t : String) (h : 0 < t.length) : s ++ t ≠ s := by
  intro he
  have hl := congrArg String.length he
  rw [String.length_append] at hl
  omega

theorem backup_fn_ne (dbfile : String) (v : Nat) : backup_fn dbfile v ≠ dbfile := by
  have h : backup_fn dbfile v = dbfile ++ ("-backup-v" ++ toString v) := by
    simp [backup_fn, String.append_assoc]
  rw [h]
  apply append_ne_of_len
  rw [String.length_append]
  have h9 : ("-backup-v" : String).length = 9 := rfl
  omega

theorem temp_fn_ne (w : World) (dbfile : String) : temp_fn w dbfile ≠ dbfile := by
  have h : temp_fn w dbfile = dbfile ++ ("." ++ toString w.tempCounter) := by
    simp [temp_fn, String.append_assoc]
  rw [h]
  apply append_ne_of_len
  rw [String.length_append]
  have h1 : ("." : String).length = 1 := rfl
  omega

theorem commit_tempCounter (w : World) (conn : Conn) :
    (commit w conn).tempCounter = w.tempCounter := by
  unfold commit
  cases conn.target <;> rfl

theorem commit_none (w : World) (conn : Conn) (h : conn.target = none) :
    commit w conn = w := by
  simp [commit, h]

theorem commit_files_self (w : World) (conn : Conn) (p : String)
    (h : conn.target = some p) : (commit w conn).files p = some (.db conn.content) := by
  simp [commit, h, updateFiles_self]

theorem commit_files_ne (w : World) (conn : Conn) (p q : String)
    (h : conn.target = some p) (hq : q ≠ p) : (commit w conn).files q = w.files q := by
  simp [commit, h, updateFiles_ne _ _ _ _ hq]

/-! ### Lemmas about opening connections -/

theorem open_db_connection_mem (w : World) :
    open_db_connection w ":memory:" = (w, .ok ⟨none, false, emptyDB⟩) := by
  simp [open_db_connection, connect, initialize_db_connection, foreign_key_check, emptyDB]

theorem open_db_connection_db (w : World) (p : String) (c : DBContent)
    (hmem : p ≠ ":memory:") (hf : w.files p = some (.db c)) (hfk : c.fkViolations = []) :
    open_db_connection w p = (w, .ok ⟨some p, false, c⟩) := by
  simp [open_db_connection, connect, hmem, hf, initialize_db_connection,
    foreign_key_check, hfk]

theorem open_db_connection_fk (w : World) (p : String) (c : DBContent)
    (hmem : p ≠ ":memory:") (hf : w.files p = some (.db c)) (hfk : c.fkViolations ≠ []) :
    open_db_connection w p =
      (w, .error (.dbError ("failed foreign key check: " ++ toString c.fkViolations))) := by
  simp [open_db_connection, connect, hmem, hf, initialize_db_connection,
    foreign_key_check, hfk]

theorem open_db_connection_ok_target (w w' : World) (p : String) (conn : Conn)
    (hmem : p ≠ ":memory:") (h : open_db_connection w p = (w', .ok conn)) :
    conn.target = some p := by
  cases hfp : w.files p with
  | none =>
      simp [open_db_connection, connect, hmem, hfp, initialize_db_connection,
        foreign_key_check, emptyDB] at h
      rw [← h.2]
  | some fd =>
      cases fd with
      | empty =>
          simp [open_db_connection, connect, hmem, hfp, initialize_db_connection,
            foreign_key_check, emptyDB] at h
          rw [← h.2]
      | db c =>
          by_cases hfk : c.fkViolations = []
          · simp [open_db_connection, connect, hmem, hfp, initialize_db_connection,
              foreign_key_check, hfk] at h
            rw [← h.2]
          · simp [open_db_connection, connect, hmem, hfp, initialize_db_connection,
              foreign_key_check, hfk] at h
      | junk id =>
          simp [open_db_connection, connect, hmem, hfp, initialize_db_connection,
            foreign_key_check] at h

/-! ### Lemmas about the migration loop -/

theorem get_upgrader_ok_eq (env : Env) (name : String) (k : Nat) (s : Script)
    (h : get_upgrader env name k = .ok s) : s = .upgrade name k := by
  unfold get_upgrader at h
  cases hr : env.upgraderRead name k with
  | ok u => rw [hr] at h; exact (Except.ok.inj h).symm
  | error e => cases e <;> rw [hr] at h <;> simp at h

theorem get_upgrader_read_ok (env : Env) (name : String) (k : Nat)
    (h : env.upgraderRead name k = .ok ()) :
    get_upgrader env name k = .ok (.upgrade name k) := by
  simp [get_upgrader, h]

theorem get_upgrader_os_fail (env : Env) (name : String) (k : Nat) (b : Bool)
    (h : env.upgraderRead name k = .error (.osError b)) :
    get_upgrader env name k = .error (.valueError ("no upgrader for " ++ toString k)) := by
  simp [get_upgrader, h]

theorem junk_eq_false_of_not (conn : Conn) (hj : ¬conn.junk = true) : conn.junk = false := by
  revert hj
  cases conn.junk <;> simp

theorem executescript_not_junk (conn : Conn) (s : Script) (hj : conn.junk = false) :
    executescript conn s = .ok ⟨conn.target, false, applyScript s conn.content⟩ := by
  simp [executescript, hj]

theorem loopAux_ok_spec (env : Env) (dbfile name : String) :
    ∀ steps v w conn w' conn' vf,
      loopAux env dbfile name steps v w conn = (w', .ok (conn', vf)) →
      vf = v + steps
      ∧ conn'.target = conn.target
      ∧ conn'.content.appliedScripts =
          conn.content.appliedScripts ++
            (List.range' (v + 1) steps).map (fun j => Script.upgrade name j)
      ∧ (0 < steps → conn'.content.versionRecord = some (v + steps))
      ∧ (steps = 0 → conn' = conn ∧ w' = w)
      ∧ (∀ q, conn.target ≠ some q → w'.files q = w.files q)
      ∧ w'.tempCounter = w.tempCounter
      ∧ (conn.target = none → w' = w)
      ∧ (∀ p, conn.target = some p → 0 < steps → w'.files p = some (.db conn'.content)) := by
  intro steps
  induction steps with
  | zero =>
      intro v w conn w' conn' vf h
      simp only [loopAux, Prod.mk.injEq, Except.ok.injEq] at h
      obtain ⟨hw, hc, hv⟩ := h
      subst hw
      subst hc
      subst hv
      refine ⟨by omega, rfl, by simp, by omega, fun _ => ⟨rfl, rfl⟩, fun q _ => rfl, rfl,
        fun _ => rfl, fun p _ h0 => by omega⟩
  | succ steps ih =>
      intro v w conn w' conn' vf h
      simp only [loopAux] at h
      cases hu : get_upgrader env name (v + 1) with
      | error e =>
          simp only [hu] at h
          by_cases hve : isValueError e = true <;> simp [hve] at h
      | ok s =>
          simp only [hu] at h
          have hs := get_upgrader_ok_eq env name (v + 1) s hu
          subst hs
          by_cases hj : conn.junk = true
          · rw [show executescript conn (.upgrade name (v + 1)) =
                .error (.sqlError "file is not a database") from by simp [executescript, hj]]
              at h
            simp at h
          · have hjf := junk_eq_false_of_not conn hj
            rw [executescript_not_junk conn _ hjf] at h
            generalize hc2 : (⟨conn.target, false,
              applyScript (.upgrade name (v + 1)) conn.content⟩ : Conn) = conn2 at h
            obtain ⟨ihvf, ihtgt, ihscr, ihrec, ihzero, ihframe, ihtc, ihnone, ihself⟩ :=
              ih (v + 1) (commit w conn2) conn2 w' conn' vf h
            have htgt2 : conn2.target = conn.target := by rw [← hc2]
            have hscr2 : conn2.content.appliedScripts =
                conn.content.appliedScripts ++ [Script.upgrade name (v + 1)] := by
              rw [← hc2]
              rfl
            have hrec2 : conn2.content.versionRecord = some (v + 1) := by
              rw [← hc2]
              rfl
            refine ⟨by omega, by rw [ihtgt, htgt2], ?_, ?_, by omega, ?_, ?_, ?_, ?_⟩
            · rw [ihscr, hscr2, List.range'_succ]
              simp [List.append_assoc]
            · intro _
              rcases Nat.eq_zero_or_pos steps with hz | hpos
              · subst hz
                rw [(ihzero rfl).1, hrec2]
              · rw [ihrec hpos]
                congr 1
                omega
            · intro q hq
              rw [ihframe q (by rw [htgt2]; exact hq)]
              cases htc : conn.target with
              | none => rw [commit_none w conn2 (by rw [htgt2, htc])]
              | some p =>
                  have hqp : q ≠ p := by
                    intro he
                    exact hq (by rw [htc, he])
                  exact commit_files_ne w conn2 p q (by rw [htgt2, htc]) hqp
            · rw [ihtc, commit_tempCounter]
            · intro hnone
              rw [ihnone (by rw [htgt2, hnone]), commit_none w conn2 (by rw [htgt2, hnone])]
            · intro p hp _
              rcases Nat.eq_zero_or_pos steps with hz | hpos
              · subst hz
                obtain ⟨hce, hwe⟩ := ihzero rfl
                rw [hwe, hce]
                exact commit_files_self w conn2 p (by rw [htgt2, hp])
              · exact ihself p (by rw [htgt2, hp]) hpos

theorem loopAux_all_ok (env : Env) (dbfile name : String) :
    ∀ steps v w conn, conn.junk = false →
      (∀ j, v + 1 ≤ j → j ≤ v + steps → env.upgraderRead name j = .ok ()) →
      ∃ w' conn', loopAux env dbfile name steps v w conn = (w', .ok (conn', v + steps)) := by
  intro steps
  induction steps with
  | zero =>
      intro v w conn _ _
      exact ⟨w, conn, by simp [loopAux]⟩
  | succ steps ih =>
      intro v w conn hj hall
      have hr : env.upgraderRead name (v + 1) = .ok () := hall (v + 1) le_rfl (by omega)
      obtain ⟨w', conn', hl⟩ := ih (v + 1)
        (commit w ⟨conn.target, false, applyScript (.upgrade name (v + 1)) conn.content⟩)
        ⟨conn.target, false, applyScript (.upgrade name (v + 1)) conn.content⟩ rfl
        (fun j h1 h2 => hall j (by omega) (by omega))
      refine ⟨w', conn', ?_⟩
      simp only [loopAux, get_upgrader_read_ok env name (v + 1) hr,
        executescript_not_junk conn _ hj]
      have harith : v + 1 + steps = v + (steps + 1) := by omega
      rw [harith] at hl
      exact hl

theorem loopAux_first_missing (env : Env) (dbfile name : String)
    (steps v : Nat) (w : World) (conn : Conn) (b : Bool)
    (hs : 0 < steps) (hr : env.upgraderRead name (v + 1) = .error (.osError b)) :
    loopAux env dbfile name steps v w conn =
      (w, .error (.dbError (upgradeFailMsg dbfile v))) := by
  cases steps with
  | zero => omega
  | succ steps =>
      simp only [loopAux, get_upgrader_os_fail env name (v + 1) b hr]
      simp [isValueError]

theorem loopAux_frame (env : Env) (dbfile name : String) :
    ∀ steps v w conn w' r, loopAux env dbfile name steps v w conn = (w', r) →
      (∀ q, conn.target ≠ some q → w'.files q = w.files q)
      ∧ w'.tempCounter = w.tempCounter := by
  intro steps
  induction steps with
  | zero =>
      intro v w conn w' r h
      simp only [loopAux, Prod.mk.injEq] at h
      rw [← h.1]
      exact ⟨fun q _ => rfl, rfl⟩
  | succ steps ih =>
      intro v w conn w' r h
      simp only [loopAux] at h
      cases hu : get_upgrader env name (v + 1) with
      | error e =>
          simp only [hu] at h
          by_cases hve : isValueError e = true <;>
            simp only [hve, if_true, if_false, Bool.false_eq_true, Prod.mk.injEq] at h <;>
            rw [← h.1] <;> exact ⟨fun q _ => rfl, rfl⟩
      | ok s =>
          simp only [hu] at h
          by_cases hj : conn.junk = true
          · rw [show executescript conn s = .error (.sqlError "file is not a database") from
              by simp [executescript, hj]] at h
            simp only [Prod.mk.injEq] at h
            rw [← h.1]
            exact ⟨fun q _ => rfl, rfl⟩
          · have hjf := junk_eq_false_of_not conn hj
            rw [executescript_not_junk conn s hjf] at h
            generalize hc2 : (⟨conn.target, false, applyScript s conn.content⟩ : Conn) = conn2 at h
            obtain ⟨ihframe, ihtc⟩ := ih (v + 1) (commit w conn2) conn2 w' r h
            have htgt2 : conn2.target = conn.target := by rw [← hc2]
            constructor
            · intro q hq
              rw [ihframe q (by rw [htgt2]; exact hq)]
              cases htc : conn.target with
              | none => rw [commit_none w conn2 (by rw [htgt2, htc])]
              | some p =>
                  have hqp : q ≠ p := fun he => hq (by rw [htc, he])
                  exact commit_files_ne w conn2 p q (by rw [htgt2, htc]) hqp
            · rw [ihtc, commit_tempCounter]

/-! ### Lemmas about `get_db` -/

theorem select_version_db (p : String) (c : DBContent) (K : Nat)
    (hvt : c.hasVersionTable = true) (hrec : c.versionRecord = some K) :
    execute_select_version ⟨some p, false, c⟩ = .ok K := by
  simp [execute_select_version, hvt, hrec]

theorem postLoop_ok (w : World) (conn : Conn) (tv : Nat) :
    postLoop (w, .ok (conn, tv)) tv = (w, .ok conn) := by
  simp [postLoop]

theorem postLoop_err (w : World) (e : Err) (tv : Nat) :
    postLoop (w, .error e) tv = (w, .error e) := rfl

theorem postLoop_fst (x : World × Except Err (Conn × Nat)) (tv : Nat) :
    (postLoop x tv).1 = x.1 := by
  rcases x with ⟨w, r⟩
  cases r with
  | error e => rfl
  | ok cv =>
      rcases cv with ⟨conn, vf⟩
      by_cases h : vf = tv <;> simp [postLoop, h]

theorem openPhase_existing (env : Env) (w : World) (dbfile name : String) (tv : Nat)
    (c : DBContent) (hmem : dbfile ≠ ":memory:") (hf : w.files dbfile = some (.db c))
    (hfk : c.fkViolations = []) :
    openPhase env w dbfile name tv = (w, .ok ⟨some dbfile, false, c⟩) := by
  simp only [openPhase, if_neg hmem, hf, Option.isSome_some, if_true]
  exact open_db_connection_db w dbfile c hmem hf hfk

theorem backupStep_behind (w : World) (dbfile : String) (K tv : Nat) (c : DBContent)
    (hmem : dbfile ≠ ":memory:") (hf : w.files dbfile = some (.db c)) (hK : K < tv) :
    backupStep w dbfile K tv =
      { w with files := updateFiles w.files (backup_fn dbfile K) (.db c) } := by
  simp [backupStep, hK, hmem, hf]

theorem get_db_existing_behind (env : Env) (w : World) (dbfile name : String) (tv : Nat)
    (c : DBContent) (K : Nat)
    (hmem : dbfile ≠ ":memory:") (hf : w.files dbfile = some (.db c))
    (hvt : c.hasVersionTable = true) (hrec : c.versionRecord = some K)
    (hfk : c.fkViolations = []) (hK : K < tv) :
    get_db env w dbfile name tv =
      postLoop (loopAux env dbfile name (tv - K) K
        { w with files := updateFiles w.files (backup_fn dbfile K) (.db c) }
        ⟨some dbfile, false, c⟩) tv := by
  simp only [get_db, openPhase_existing env w dbfile name tv c hmem hf hfk,
    select_version_db dbfile c K hvt hrec,
    backupStep_behind w dbfile K tv c hmem hf hK]

theorem get_db_missing_upgrader (env : Env) (w : World) (dbfile name : String) (tv : Nat)
    (c : DBContent) (K : Nat) (b : Bool)
    (hmem : dbfile ≠ ":memory:") (hf : w.files dbfile = some (.db c))
    (hvt : c.hasVersionTable = true) (hrec : c.versionRecord = some K)
    (hfk : c.fkViolations = []) (hK : K < tv)
    (hr : env.upgraderRead name (K + 1) = .error (.osError b)) :
    get_db env w dbfile name tv =
      ({ w with files := updateFiles w.files (backup_fn dbfile K) (.db c) },
       .error (.dbError (upgradeFailMsg dbfile K))) := by
  rw [get_db_existing_behind env w dbfile name tv c K hmem hf hvt hrec hfk hK,
    loopAux_first_missing env dbfile name (tv - K) K _ _ b (by omega) hr]
  rfl

/-! ### Concrete instances used by the witnesses -/

/-- Resource environment where every schema and upgrader read succeeds. -/
def envOk : Env := ⟨fun _ _ => .ok (), fun _ _ => .ok ()⟩

/-- Resource environment where every upgrader read fails with
`FileNotFoundError` (the missing-step situation). -/
def envNoUp : Env := ⟨fun _ _ => .ok (), fun _ _ => .error (.osError true)⟩

/-- Resource environment where every schema read fails. -/
def envNoSchema : Env := ⟨fun _ _ => .error (.osError true), fun _ _ => .ok ()⟩

/-- Resource environment where every upgrader read fails with an `OSError`
that is not `FileNotFoundError` (e.g. `PermissionError`). -/
def envPerm : Env := ⟨fun _ _ => .ok (), fun _ _ => .error (.osError false)⟩

/-- An empty filesystem. -/
def w0 : World := ⟨fun _ => none, 0⟩

/-- A valid database file content stamped at version 1. -/
def cV1 : DBContent := ⟨true, some 1, [], []⟩

/-- A filesystem holding a version-1 database at `"data.db"`. -/
def wV1 : World := ⟨updateFiles (fun _ => none) "data.db" (.db cV1), 0⟩

/-- A database content with a foreign-key violation. -/
def cBad : DBContent := ⟨true, some 1, [], ["orphan row"]⟩

/-- A filesystem holding the violating database at `"bad.db"`. -/
def wBad : World := ⟨updateFiles (fun _ => none) "bad.db" (.db cBad), 0⟩

/-! ### The claims -/

/-- Claim C2: starting an upgrade session at version `K < target`, the
migration loop proceeds strictly one step at a time — when every upgrader
resolves, the scripts executed on the connection are exactly the single-step
upgraders `K+1, K+2, ..., target`, in ascending order, none skipped or
repeated, and the connection ends at the target version record; and when the
upgrader for `K+1` cannot be resolved, the whole call fails with the generic
`DBError` whose message (`upgradeFailMsg dbfile K`) names both `K` and
`K+1`, and the database file still holds its original content with version
record `K` — the last committed version. -/
theorem claim_C2 (env : Env) (w : World) (dbfile name : String) (tv : Nat)
    (c : DBContent) (K : Nat)
    (hmem : dbfile ≠ ":memory:") (hf : w.files dbfile = some (.db c))
    (hvt : c.hasVersionTable = true) (hrec : c.versionRecord = some K)
    (hfk : c.fkViolations = []) (hK : K < tv) :
    ((∀ j, K < j → j ≤ tv → env.upgraderRead name j = .ok ()) →
      ∃ w' conn', get_db env w dbfile name tv = (w', .ok conn')
        ∧ conn'.content.appliedScripts =
            c.appliedScripts ++
              (List.range' (K + 1) (tv - K)).map (fun j => Script.upgrade name j)
        ∧ conn'.content.versionRecord = some tv)
    ∧ (∀ b, env.upgraderRead name (K + 1) = .error (.osError b) →
        ∃ w', get_db env w dbfile name tv =
            (w', .error (.dbError (upgradeFailMsg dbfile K)))
          ∧ w'.files dbfile = some (.db c)
          ∧ c.versionRecord = some K) := by
  constructor
  · intro hall
    obtain ⟨w', conn', hl⟩ := loopAux_all_ok env dbfile name (tv - K) K
      { w with files := updateFiles w.files (backup_fn dbfile K) (.db c) }
      ⟨some dbfile, false, c⟩ rfl
      (fun j h1 h2 => hall j (by omega) (by omega))
    obtain ⟨_, _, ihscr, ihrec, _, _, _, _, _⟩ :=
      loopAux_ok_spec env dbfile name (tv - K) K _ _ w' conn' (K + (tv - K)) hl
    have hKt : K + (tv - K) = tv := by omega
    rw [hKt] at hl ihrec
    refine ⟨w', conn', ?_, ihscr, ihrec (by omega)⟩
    rw [get_db_existing_behind env w dbfile name tv c K hmem hf hvt hrec hfk hK, hl]
    exact postLoop_ok w' conn' tv
  · intro b hr
    refine ⟨{ w with files := updateFiles w.files (backup_fn dbfile K) (.db c) },
      get_db_missing_upgrader env w dbfile name tv c K b hmem hf hvt hrec hfk hK hr,
      ?_, hrec⟩
    show updateFiles w.files (backup_fn dbfile K) (.db c) dbfile = some (.db c)
    rw [updateFiles_ne w.files (backup_fn dbfile K) (.db c) dbfile
      (Ne.symm (backup_fn_ne dbfile K))]
    exact hf

/-- Witness for C2 at concrete inputs: a version-1 `"data.db"` upgraded to
target 2 under an environment with all upgraders available executes exactly
the single upgrade step to version 2; under an environment whose upgrader
for version 2 is missing, the call fails with the message naming versions 1
and 2 and the file is left at version 1. -/
theorem claim_C2_witness :
    (∃ w' conn', get_db envOk wV1 "data.db" "usage" 2 = (w', .ok conn')
      ∧ conn'.content.appliedScripts =
          cV1.appliedScripts ++
            (List.range' (1 + 1) (2 - 1)).map (fun j => Script.upgrade "usage" j)
      ∧ conn'.content.versionRecord = some 2)
    ∧ (∃ w', get_db envNoUp wV1 "data.db" "usage" 2 =
          (w', .error (.dbError (upgradeFailMsg "data.db" 1)))
        ∧ w'.files "data.db" = some (.db cV1)
        ∧ cV1.versionRecord = some 1) := by
  constructor
  · exact (claim_C2 envOk wV1 "data.db" "usage" 2 cV1 1 (by decide) rfl rfl rfl rfl
      (by decide)).1 (fun j _ _ => rfl)
  · exact (claim_C2 envNoUp wV1 "data.db" "usage" 2 cV1 1 (by decide) rfl rfl rfl rfl
      (by decide)).2 true rfl

/-- Claim C10 (implicit): when an upgrade session on a persistent file fails
because no upgrader step exists, the backup file `"<path>-backup-v<K>"` has
nevertheless already been created — it holds the original file content even
though zero migration steps were applied, and it sits in the final world
alongside the error. -/
theorem claim_C10 (env : Env) (w : World) (dbfile name : String) (tv : Nat)
    (c : DBContent) (K : Nat) (b : Bool)
    (hmem : dbfile ≠ ":memory:") (hf : w.files dbfile = some (.db c))
    (hvt : c.hasVersionTable = true) (hrec : c.versionRecord = some K)
    (hfk : c.fkViolations = []) (hK : K < tv)
    (hr : env.upgraderRead name (K + 1) = .error (.osError b)) :
    ∃ w', get_db env w dbfile name tv =
        (w', .error (.dbError (upgradeFailMsg dbfile K)))
      ∧ w'.files (backup_fn dbfile K) = some (.db c) := by
  refine ⟨{ w with files := updateFiles w.files (backup_fn dbfile K) (.db c) },
    get_db_missing_upgrader env w dbfile name tv c K b hmem hf hvt hrec hfk hK hr, ?_⟩
  exact updateFiles_self w.files (backup_fn dbfile K) (.db c)

/-- Witness for C10 at concrete inputs: the failing upgrade of the
version-1 `"data.db"` leaves `"data.db-backup-v1"` on disk holding the
original content. -/
theorem claim_C10_witness :
    ∃ w', get_db envNoUp wV1 "data.db" "usage" 2 =
        (w', .error (.dbError (upgradeFailMsg "data.db" 1)))
      ∧ w'.files (backup_fn "data.db" 1) = some (.db cV1) :=
  claim_C10 envNoUp wV1 "data.db" "usage" 2 cV1 1 true (by decide) rfl rfl rfl rfl
    (by decide) rfl

/-- The whole of `get_db` on the `":memory:"` sentinel leaves the
filesystem untouched, whether it succeeds or fails. -/
theorem get_db_memory_world (env : Env) (w : World) (name : String) (tv : Nat) :
    (get_db env w ":memory:" name tv).1 = w := by
  cases hs : env.schemaRead name tv with
  | error e =>
      simp [get_db, openPhase, open_db_connection_mem, initialize_db_schema, get_schema, hs]
  | ok u =>
      cases u
      simp [get_db, openPhase, open_db_connection_mem, initialize_db_schema, get_schema, hs,
        executescript, emptyDB, applyScript, execute_insert_version, commit,
        execute_select_version, backupStep, Nat.sub_self, loopAux, postLoop]

/-- Claim C9: for every call of `get_db` with the in-memory sentinel path
`":memory:"`, no file is ever created on disk — the final filesystem is the
initial one, for every environment, initial world, schema name and target
version, on success and on failure alike (so no database file, no temporary
provisioning file, and no backup file appears). -/
theorem claim_C9 (env : Env) (w : World) (name : String) (tv : Nat) :
    (get_db env w ":memory:" name tv).1 = w :=
  get_db_memory_world env w name tv

/-- Claim C4, counterexample: an `OSError` other than `FileNotFoundError`
(the `notFound := false` case, e.g. a `PermissionError`) raised while
reading the upgrader resource IS reported as the missing-upgrader
`ValueError("no upgrader for 2")` — the source catches all of `OSError`, so
the missing-resource condition is not distinguishable from other OS-level
I/O failures, contrary to the claim. -/
theorem claim_C4_counterexample :
    envPerm.upgraderRead "usage" 2 = .error (.osError false)
    ∧ ReadErr.osError false ≠ ReadErr.osError true
    ∧ get_upgrader envPerm "usage" 2 =
        .error (.valueError ("no upgrader for " ++ toString 2)) :=
  ⟨rfl, by decide, rfl⟩

/-- Claim C4 as amended: `get_upgrader` fails with the distinct
`"no upgrader for X"` `ValueError` exactly when reading the single-step
migration resource raises an OS-level error — including, but not limited
to, the resource being missing (`except OSError` catches every `OSError`);
failures that are not `OSError`s (e.g. decode errors) propagate and are
distinguishable. -/
theorem claim_C4 (env : Env) (name : String) (v : Nat) :
    get_upgrader env name v =
        .error (.valueError ("no upgrader for " ++ toString v))
      ↔ ∃ b, env.upgraderRead name v = .error (.osError b) := by
  cases hr : env.upgraderRead name v with
  | ok u => simp [get_upgrader, hr]
  | error e =>
      cases e with
      | osError b => simp [get_upgrader, hr]
      | decodeError => simp [get_upgrader, hr]

/-- Claim C8: opening a database file whose contents violate a declared
relational constraint runs the integrity self-check right after enabling
constraint enforcement and aborts with the structured `DBError` carrying
the violation list — no connection is returned and the world is untouched.
(Every connection-open path of the source goes through
`_open_db_connection` / `_initialize_db_connection`, which this theorem is
about.) -/
theorem claim_C8 (w : World) (dbfile : String) (c : DBContent)
    (hmem : dbfile ≠ ":memory:") (hf : w.files dbfile = some (.db c))
    (hvio : c.fkViolations ≠ []) :
    open_db_connection w dbfile =
      (w, .error (.dbError ("failed foreign key check: " ++ toString c.fkViolations))) :=
  open_db_connection_fk w dbfile c hmem hf hvio

/-- Witness for C8 at concrete inputs: opening `"bad.db"`, whose content
reports one foreign-key violation, fails with the structured error naming
that violation. -/
theorem claim_C8_witness :
    open_db_connection wBad "bad.db" =
      (wBad, .error (.dbError ("failed foreign key check: " ++ toString cBad.fkViolations))) :=
  claim_C8 wBad "bad.db" cBad (by decide) rfl (by decide)

/-- Claim C7: strict open performs no creation and no migration — on the
`":memory:"` sentinel it fails with `AssertionError` (a caller error), and
on a path with no file it fails with the distinct `DBDoesntExist` condition
(not the generic `DBError`); in both cases the world is returned unchanged,
so no file is created. -/
theorem claim_C7 (w : World) (dbfile : String) :
    (dbfile = ":memory:" → open_existing_db w dbfile = (w, .error .assertionError))
    ∧ (dbfile ≠ ":memory:" → w.files dbfile = none →
        open_existing_db w dbfile = (w, .error .dbDoesntExist)) := by
  constructor
  · intro hm
    simp [open_existing_db, hm]
  · intro hm hf
    simp [open_existing_db, hm, hf]

/-- Witness for C7 at concrete inputs: strict open of `":memory:"` raises
the assertion failure; strict open of the absent `"missing.db"` fails with
`DBDoesntExist` and leaves the empty filesystem unchanged. -/
theorem claim_C7_witness :
    open_existing_db w0 ":memory:" = (w0, .error .assertionError)
    ∧ open_existing_db w0 "missing.db" = (w0, .error .dbDoesntExist) :=
  ⟨(claim_C7 w0 ":memory:").1 rfl, (claim_C7 w0 "missing.db").2 (by decide) rfl⟩

theorem select_ok_record (conn : Conn) (v : Nat)
    (h : execute_select_version conn = .ok v) :
    conn.content.versionRecord = some v := by
  by_cases hj : conn.junk = true
  · simp [execute_select_version, hj] at h
  · have hjf := junk_eq_false_of_not conn hj
    by_cases hvt : conn.content.hasVersionTable = true
    · cases hm : conn.content.versionRecord with
      | none => simp [execute_select_version, hjf, hvt, hm] at h
      | some u =>
          simp only [execute_select_version, hjf, hvt, hm, Bool.false_eq_true, if_false,
            if_true, Except.ok.injEq] at h
          rw [h]
    · simp [execute_select_version, hjf, hvt] at h

theorem atomic_ok_target (env : Env) (w : World) (dbfile name : String) (tv : Nat)
    (w' : World) (conn : Conn) (hmem : dbfile ≠ ":memory:")
    (h : atomic_create_and_initialize_db env w dbfile name tv = (w', .ok conn)) :
    conn.target = some dbfile := by
  unfold atomic_create_and_initialize_db at h
  cases h1 : open_db_connection (get_temporary_dbfile w dbfile).1
      (get_temporary_dbfile w dbfile).2 with
  | mk w2 r2 =>
  simp only [h1] at h
  cases r2 with
  | error e => simp at h
  | ok db0 =>
      cases h2 : initialize_db_schema env w2 db0 name tv with
      | mk w3 r3 =>
      simp only [h2] at h
      cases r3 with
      | error e => simp at h
      | ok db2 => exact open_db_connection_ok_target _ w' dbfile conn hmem h

theorem open_temp_ok (w : World) (p : String) (hp : w.files p = some .empty) :
    ∃ conn, open_db_connection w p = (w, .ok conn) ∧ conn.junk = false
      ∧ conn.content = emptyDB ∧ (conn.target = none ∨ conn.target = some p) := by
  by_cases hm : p = ":memory:"
  · subst hm
    exact ⟨⟨none, false, emptyDB⟩, open_db_connection_mem w, rfl, rfl, Or.inl rfl⟩
  · refine ⟨⟨some p, false, emptyDB⟩, ?_, rfl, rfl, Or.inr rfl⟩
    simp [open_db_connection, connect, hm, hp, initialize_db_connection,
      foreign_key_check, emptyDB]

theorem open_ok_of_good (w : World) (p : String)
    (hgood : w.files p = some .empty
      ∨ ∃ c, w.files p = some (.db c) ∧ c.fkViolations = []) :
    ∃ w2 conn, open_db_connection w p = (w2, .ok conn) := by
  by_cases hm : p = ":memory:"
  · subst hm
    exact ⟨w, ⟨none, false, emptyDB⟩, open_db_connection_mem w⟩
  · rcases hgood with he | ⟨c, hc, hfk⟩
    · refine ⟨w, ⟨some p, false, emptyDB⟩, ?_⟩
      simp [open_db_connection, connect, hm, he, initialize_db_connection,
        foreign_key_check, emptyDB]
    · exact ⟨w, ⟨some p, false, c⟩, open_db_connection_db w p c hm hc hfk⟩

theorem init_schema_mem (env : Env) (w : World) (name : String) (tv : Nat)
    (hs : env.schemaRead name tv = .ok ()) :
    initialize_db_schema env w ⟨none, false, emptyDB⟩ name tv =
      (w, .ok ⟨none, false, ⟨true, some tv, [.creation name tv], []⟩⟩) := by
  simp [initialize_db_schema, get_schema, hs, executescript, emptyDB, applyScript,
    execute_insert_version, commit]

/-- Claim C1: `_get_db` branches on exactly three cases — the `":memory:"`
sentinel creates a fresh in-memory database initialized immediately (the
connection is file-less and the filesystem untouched), an existing path is
opened as-is, and a missing path goes through the atomic provisioner (both
persistent cases yield a connection backed by exactly the requested path;
the branching itself is definitional in `openPhase`) — and in every case in
which it returns successfully, the returned connection's version record
equals exactly the target version. -/
theorem claim_C1 (env : Env) (w : World) (dbfile name : String) (tv : Nat)
    (w' : World) (conn' : Conn)
    (h : get_db env w dbfile name tv = (w', .ok conn')) :
    conn'.content.versionRecord = some tv
    ∧ (dbfile = ":memory:" → conn'.target = none ∧ w' = w)
    ∧ (dbfile ≠ ":memory:" → conn'.target = some dbfile) := by
  unfold get_db at h
  cases hop : openPhase env w dbfile name tv with
  | mk w1 r1 =>
  simp only [hop] at h
  cases r1 with
  | error e => simp at h
  | ok db =>
  cases hsel : execute_select_version db with
  | error e => simp [hsel] at h
  | ok version =>
  simp only [hsel] at h
  cases hl : loopAux env dbfile name (tv - version) version
      (backupStep w1 dbfile version tv) db with
  | mk w3 r3 =>
  rw [hl] at h
  cases r3 with
  | error e => simp [postLoop] at h
  | ok cv =>
  rcases cv with ⟨connf, vf⟩
  by_cases hvf : vf = tv
  · rw [hvf] at hl h
    rw [postLoop_ok] at h
    simp only [Prod.mk.injEq, Except.ok.injEq] at h
    obtain ⟨hw3, hcf⟩ := h
    subst hw3
    subst hcf
    obtain ⟨hvfe, htgt, _, ihrec, ihzero, _, _, ihnone, _⟩ :=
      loopAux_ok_spec env dbfile name (tv - version) version _ _ w3 connf tv hl
    have hdbrec := select_ok_record db version hsel
    refine ⟨?_, ?_, ?_⟩
    · rcases Nat.eq_zero_or_pos (tv - version) with hz | hpos
      · have hveq : version = tv := by omega
        obtain ⟨hce, _⟩ := ihzero hz
        rw [hce, hdbrec, hveq]
      · rw [ihrec hpos]
        congr 1
        omega
    · intro hm
      subst hm
      cases hs : env.schemaRead name tv with
      | error er =>
          exfalso
          have hph : openPhase env w ":memory:" name tv = (w, .error (.readError er)) := by
            simp [openPhase, open_db_connection_mem, initialize_db_schema, get_schema, hs]
          rw [hph] at hop
          simp at hop
      | ok u =>
          cases u
          have hph : openPhase env w ":memory:" name tv =
              (w, .ok ⟨none, false, ⟨true, some tv, [Script.creation name tv], []⟩⟩) := by
            simp [openPhase, open_db_connection_mem, init_schema_mem env w name tv hs]
          rw [hph] at hop
          simp only [Prod.mk.injEq, Except.ok.injEq] at hop
          obtain ⟨hw1, hdb⟩ := hop
          constructor
          · rw [htgt, ← hdb]
          · have hnone3 := ihnone (by rw [← hdb])
            rw [hnone3, show backupStep w1 ":memory:" version tv = w1 from
              by simp [backupStep]]
            exact hw1.symm
    · intro hm
      rw [htgt]
      revert hop
      unfold openPhase
      rw [if_neg hm]
      by_cases hex : (w.files dbfile).isSome
      · rw [if_pos hex]
        intro hop
        exact open_db_connection_ok_target w w1 dbfile db hm hop
      · rw [if_neg hex]
        intro hop
        exact atomic_ok_target env w dbfile name tv w1 db hm hop
  · simp [postLoop, hvf] at h

/-- The connection produced by a fresh in-memory `get_db` run for the usage
schema. -/
def memUsage2 : Conn := ⟨none, false, ⟨true, some 2, [.creation "usage" 2], []⟩⟩

/-- Witness for C1 at concrete inputs: on `":memory:"` with target version
2, `get_db` succeeds, the filesystem stays empty, and the returned
connection is file-less with version record 2. -/
theorem claim_C1_witness :
    get_db envOk w0 ":memory:" "usage" 2 = (w0, .ok memUsage2)
    ∧ memUsage2.content.versionRecord = some 2
    ∧ memUsage2.target = none := by
  have hres : get_db envOk w0 ":memory:" "usage" 2 = (w0, .ok memUsage2) := rfl
  have h := claim_C1 envOk w0 ":memory:" "usage" 2 w0 memUsage2 hres
  exact ⟨hres, h.1, (h.2.1 rfl).1⟩

/-- Claim C5: when `get_db` upgrades a persistent file from version
`V < target`, the world after the call (success or failure) holds the
backup file named `backup_fn dbfile V` (i.e. `"<path>-backup-v<V>"`) whose
content is exactly the pre-upgrade file content `c` — the copy is taken
before any migration statement runs, so later mutation of the database
never touches it — and no path other than the database file and that single
backup is changed; when the file is already at the target version the call
returns with the world completely unchanged (no backup); and on the
ephemeral sentinel the filesystem is never touched (no backup). -/
theorem claim_C5 (env : Env) (w : World) (dbfile name : String) (tv : Nat)
    (c : DBContent) (V : Nat)
    (hf : w.files dbfile = some (.db c)) (hvt : c.hasVersionTable = true)
    (hrec : c.versionRecord = some V) (hfk : c.fkViolations = []) :
    (dbfile ≠ ":memory:" → V < tv →
      ∀ w' r, get_db env w dbfile name tv = (w', r) →
        w'.files (backup_fn dbfile V) = some (.db c)
        ∧ ∀ p, p ≠ dbfile → p ≠ backup_fn dbfile V → w'.files p = w.files p)
    ∧ (dbfile ≠ ":memory:" → V = tv →
        get_db env w dbfile name tv = (w, .ok ⟨some dbfile, false, c⟩))
    ∧ (∀ name2 tv2, ((get_db env w ":memory:" name2 tv2).1).files = w.files) := by
  refine ⟨?_, ?_, ?_⟩
  · intro hmem hV w' r h
    rw [get_db_existing_behind env w dbfile name tv c V hmem hf hvt hrec hfk hV] at h
    cases hl : loopAux env dbfile name (tv - V) V
        { w with files := updateFiles w.files (backup_fn dbfile V) (.db c) }
        ⟨some dbfile, false, c⟩ with
    | mk w3 r3 =>
    rw [hl] at h
    have hw' : w' = w3 := by
      have h1 := postLoop_fst (w3, r3) tv
      rw [h] at h1
      exact h1
    obtain ⟨hframe, _⟩ := loopAux_frame env dbfile name (tv - V) V _ _ w3 r3 hl
    subst hw'
    constructor
    · rw [hframe (backup_fn dbfile V)
        (fun he => backup_fn_ne dbfile V (Option.some.inj he).symm)]
      show updateFiles w.files (backup_fn dbfile V) (.db c) (backup_fn dbfile V) =
        some (.db c)
      exact updateFiles_self w.files (backup_fn dbfile V) (.db c)
    · intro p hp hpb
      rw [hframe p (fun he => hp (Option.some.inj he).symm)]
      show updateFiles w.files (backup_fn dbfile V) (.db c) p = w.files p
      exact updateFiles_ne w.files (backup_fn dbfile V) (.db c) p hpb
  · intro hmem hVt
    subst hVt
    simp only [get_db, openPhase_existing env w dbfile name V c hmem hf hfk,
      select_version_db dbfile c V hvt hrec]
    rw [show backupStep w dbfile V V = w from by simp [backupStep], Nat.sub_self]
    simp [loopAux, postLoop]
  · intro name2 tv2
    exact congrArg World.files (get_db_memory_world env w name2 tv2)

/-- Witness for C5 at concrete inputs: upgrading the version-1 `"data.db"`
to target 2 leaves `backup_fn "data.db" 1` holding the original content and
leaves unrelated paths untouched; calling with target 1 (already current)
returns the world unchanged; the in-memory call leaves the filesystem
as-is. -/
theorem claim_C5_witness :
    ((get_db envOk wV1 "data.db" "usage" 2).1).files (backup_fn "data.db" 1) =
        some (.db cV1)
    ∧ ((get_db envOk wV1 "data.db" "usage" 2).1).files "unrelated.txt" =
        wV1.files "unrelated.txt"
    ∧ get_db envOk wV1 "data.db" "usage" 1 = (wV1, .ok ⟨some "data.db", false, cV1⟩)
    ∧ ((get_db envOk wV1 ":memory:" "usage" 2).1).files = wV1.files := by
  have h := (claim_C5 envOk wV1 "data.db" "usage" 2 cV1 1 rfl rfl rfl rfl).1
    (by decide) (by decide)
    (get_db envOk wV1 "data.db" "usage" 2).1 (get_db envOk wV1 "data.db" "usage" 2).2 rfl
  refine ⟨h.1, h.2 "unrelated.txt" (by decide) (by decide), ?_, ?_⟩
  · exact (claim_C5 envOk wV1 "data.db" "usage" 1 cV1 1 rfl rfl rfl rfl).2.1
      (by decide) rfl
  · exact (claim_C5 envOk wV1 "data.db" "usage" 2 cV1 1 rfl rfl rfl rfl).2.2 "usage" 2

/-- Claim C6: strict creation (`create_channel_db` / `create_usage_db`) on
a path already holding a file fails with the distinct `DBAlreadyExists`
condition (not the generic `DBError`) and returns the world unchanged, so
the existing file's content is unmodified; the `":memory:"` sentinel
bypasses the existence check entirely — for every initial world it creates
a fresh in-memory database stamped at the schema's target version, touching
no file. -/
theorem claim_C6 (env : Env) (w : World) (dbfile : String) :
    (dbfile ≠ ":memory:" → (w.files dbfile).isSome →
        create_channel_db env w dbfile = (w, .error .dbAlreadyExists)
      ∧ create_usage_db env w dbfile = (w, .error .dbAlreadyExists))
    ∧ (env.schemaRead "channel" CHANNELDB_TARGET_VERSION = .ok () →
        create_channel_db env w ":memory:" =
          (w, .ok ⟨none, false, ⟨true, some CHANNELDB_TARGET_VERSION,
            [.creation "channel" CHANNELDB_TARGET_VERSION], []⟩⟩))
    ∧ (env.schemaRead "usage" USAGEDB_TARGET_VERSION = .ok () →
        create_usage_db env w ":memory:" =
          (w, .ok ⟨none, false, ⟨true, some USAGEDB_TARGET_VERSION,
            [.creation "usage" USAGEDB_TARGET_VERSION], []⟩⟩)) := by
  refine ⟨?_, ?_, ?_⟩
  · intro hmem hex
    constructor
    · simp [create_channel_db, hmem, hex]
    · simp [create_usage_db, hmem, hex]
  · intro hs
    simp [create_channel_db, open_db_connection_mem,
      init_schema_mem env w "channel" CHANNELDB_TARGET_VERSION hs]
  · intro hs
    simp [create_usage_db, open_db_connection_mem,
      init_schema_mem env w "usage" USAGEDB_TARGET_VERSION hs]

/-- Witness for C6 at concrete inputs: strict creation against the occupied
`"data.db"` fails with `DBAlreadyExists` for both schemas and leaves the
world unchanged; on `":memory:"` both succeed and return fresh in-memory
connections at their target versions. -/
theorem claim_C6_witness :
    (create_channel_db envOk wV1 "data.db" = (wV1, .error .dbAlreadyExists)
      ∧ create_usage_db envOk wV1 "data.db" = (wV1, .error .dbAlreadyExists))
    ∧ create_channel_db envOk wV1 ":memory:" =
        (wV1, .ok ⟨none, false, ⟨true, some CHANNELDB_TARGET_VERSION,
          [.creation "channel" CHANNELDB_TARGET_VERSION], []⟩⟩)
    ∧ create_usage_db envOk wV1 ":memory:" =
        (wV1, .ok ⟨none, false, ⟨true, some USAGEDB_TARGET_VERSION,
          [.creation "usage" USAGEDB_TARGET_VERSION], []⟩⟩) :=
  ⟨(claim_C6 envOk wV1 "data.db").1 (by decide) rfl,
   (claim_C6 envOk wV1 ":memory:").2.1 rfl,
   (claim_C6 envOk wV1 ":memory:").2.2 rfl⟩

/-- Claim C3: in `_atomic_create_and_initialize_db`, the rename is the only
step that makes a database visible at the target path — whenever the
operation fails (every failure happens before the rename), no file exists
at the target path afterward, and every path other than the single
temporary file created next to it is untouched (at most that orphaned
temporary file is left behind). -/
theorem claim_C3 (env : Env) (w : World) (dbfile name : String) (tv : Nat)
    (w' : World) (e : Err)
    (hnone : w.files dbfile = none)
    (h : atomic_create_and_initialize_db env w dbfile name tv = (w', .error e)) :
    w'.files dbfile = none
    ∧ ∀ p, p ≠ temp_fn w dbfile → w'.files p = w.files p := by
  unfold atomic_create_and_initialize_db get_temporary_dbfile at h
  simp only [] at h
  set wtmp : World :=
    ⟨updateFiles w.files (temp_fn w dbfile) FileData.empty, w.tempCounter + 1⟩ with hwtmp
  have hp : wtmp.files (temp_fn w dbfile) = some .empty :=
    updateFiles_self w.files (temp_fn w dbfile) .empty
  obtain ⟨conn0, hopen, hj0, hc0, htgt0⟩ := open_temp_ok wtmp (temp_fn w dbfile) hp
  simp only [hopen] at h
  cases hs : env.schemaRead name tv with
  | error er =>
      have hinit : initialize_db_schema env wtmp conn0 name tv =
          (wtmp, .error (.readError er)) := by
        simp [initialize_db_schema, get_schema, hs]
      simp only [hinit] at h
      rw [Prod.mk.injEq] at h
      obtain ⟨hw', _⟩ := h
      rw [← hw']
      constructor
      · show updateFiles w.files (temp_fn w dbfile) .empty dbfile = none
        rw [updateFiles_ne w.files (temp_fn w dbfile) .empty dbfile
          (Ne.symm (temp_fn_ne w dbfile))]
        exact hnone
      · intro p hpne
        show updateFiles w.files (temp_fn w dbfile) .empty p = w.files p
        exact updateFiles_ne w.files (temp_fn w dbfile) .empty p hpne
  | ok u =>
      cases u
      exfalso
      have hinit : initialize_db_schema env wtmp conn0 name tv =
          (commit wtmp ⟨conn0.target, false, ⟨true, some tv, [Script.creation name tv], []⟩⟩,
           .ok ⟨conn0.target, false, ⟨true, some tv, [Script.creation name tv], []⟩⟩) := by
        simp [initialize_db_schema, get_schema, hs, executescript_not_junk conn0 _ hj0,
          hc0, emptyDB, applyScript, execute_insert_version]
      simp only [hinit] at h
      have hw4 : (renameFile (commit wtmp
            ⟨conn0.target, false, ⟨true, some tv, [Script.creation name tv], []⟩⟩)
            (temp_fn w dbfile) dbfile).files dbfile =
          (commit wtmp
            ⟨conn0.target, false, ⟨true, some tv, [Script.creation name tv], []⟩⟩).files
            (temp_fn w dbfile) := by
        simp [renameFile]
      have hgood : ((renameFile (commit wtmp
            ⟨conn0.target, false, ⟨true, some tv, [Script.creation name tv], []⟩⟩)
            (temp_fn w dbfile) dbfile).files dbfile = some .empty)
          ∨ ∃ c2, (renameFile (commit wtmp
              ⟨conn0.target, false, ⟨true, some tv, [Script.creation name tv], []⟩⟩)
              (temp_fn w dbfile) dbfile).files dbfile = some (.db c2)
            ∧ c2.fkViolations = [] := by
        rcases htgt0 with htn | hts
        · left
          rw [hw4, commit_none wtmp
            ⟨conn0.target, false, ⟨true, some tv, [Script.creation name tv], []⟩⟩ htn]
          exact hp
        · right
          refine ⟨⟨true, some tv, [Script.creation name tv], []⟩, ?_, rfl⟩
          rw [hw4, commit_files_self wtmp
            ⟨conn0.target, false, ⟨true, some tv, [Script.creation name tv], []⟩⟩
            (temp_fn w dbfile) hts]
      obtain ⟨w5, conn5, hfin⟩ := open_ok_of_good _ dbfile hgood
      rw [hfin] at h
      simp at h

/-- Witness for C3 at concrete inputs: atomic creation of `"new.db"` under
an environment whose schema resource is unreadable fails, and afterwards no
file exists at `"new.db"`; an unrelated path is untouched as well. -/
theorem claim_C3_witness :
    ((atomic_create_and_initialize_db envNoSchema w0 "new.db" "channel" 1).1).files
        "new.db" = none
    ∧ ((atomic_create_and_initialize_db envNoSchema w0 "new.db" "channel" 1).1).files
        "other.db" = none := by
  have h := claim_C3 envNoSchema w0 "new.db" "channel" 1
    (atomic_create_and_initialize_db envNoSchema w0 "new.db" "channel" 1).1
    (.readError (.osError true)) rfl rfl
  exact ⟨h.1, (h.2 "other.db" (by decide)).trans rfl⟩

end WormholeDB
